import Mathlib

/-!
Shallow embedding of the bond-market simulator in
src/simulation/market_model.py (class BondMarketSimulator and the
module-level run_simulation driver), together with proofs settling the
frozen claims about it.

Conventions of the embedding:
* Python/numpy floating point arithmetic is modelled exactly over ℚ.
* Every call to the global numpy random generator is modelled as reading
  one value from an explicit oracle (RandomStream / TradeDraws).  The
  oracle gives each draw site its value directly; the program itself has
  no seed input (BondMarketSimulator.__init__ takes none), so the oracle
  is an extra parameter of the embedded functions, not part of SimConfig.
* Categorical numpy draws (np.random.choice) are modelled as the oracle
  returning the chosen value itself.
* pandas DataFrames are modelled as lists of rows.  Row labels (the
  pandas index) are carried explicitly in each market row, because the
  source mixes label-based access (.at) with positional access (.iloc):
  after pd.concat(..., ignore_index=True) the combined bond table has
  labels 0..2B-1, and the two venue tables keep those labels.
* Fallible pandas/numpy operations (reading .at with a missing label,
  iloc[0] on an empty frame, np.random.randint(0, 0)) are modelled in
  Except String with the Python exception name as the error value.
-/

/-- np.clip for scalars: values below lo become lo, above hi become hi. -/
def np_clip (x lo hi : ℚ) : ℚ := min (max x lo) hi

/-- Floor of a rational, computed with Int.fdiv so that it reduces under
kernel evaluation (the denominator of a ℚ is positive). -/
def rat_floor (q : ℚ) : ℤ := Int.fdiv q.num (q.den : ℤ)

/-- Truncation toward zero, the semantics of Python int() and of
numpy .astype(int) on floats. -/
def int_trunc (q : ℚ) : ℤ := Int.tdiv q.num (q.den : ℤ)

/-- Rounding to the nearest integer (half away from zero upward).  This is a
spec-side definition: the spec's State Carry-Forward section says the next
depth is round(updated_depth * noise); the source instead truncates.  It is
used only to compare the spec's wording with the code. -/
def spec_round (q : ℚ) : ℤ := rat_floor (q + 1/2)

/-- Mean of a list of rationals, as pandas Series.mean on a nonempty column. -/
def rat_mean (xs : List ℚ) : ℚ := xs.sum / (xs.length : ℚ)

/-- The list [start, start+1, ..., start+len-1]; models a Python range and a
pandas RangeIndex segment. -/
def nat_range_from (start : Nat) : Nat → List Nat
  | 0 => []
  | n + 1 => start :: nat_range_from (start + 1) n

/-- Pair every element of a list with its position counted from n; models the
row labels a DataFrame slice keeps from the original RangeIndex. -/
def index_from (n : Nat) : List α → List (Nat × α)
  | [] => []
  | a :: as => (n, a) :: index_from (n + 1) as

/-- Map a function that also receives the running position, starting at n. -/
def map_from_index (f : Nat → α → β) : Nat → List α → List β
  | _, [] => []
  | n, a :: as => f n a :: map_from_index f (n + 1) as

/-- Map with positions starting at 0. -/
def map_with_index (f : Nat → α → β) (l : List α) : List β := map_from_index f 0 l

/-- A bond, one row of the self.bonds DataFrame built by generate_bonds
(market_model.py lines 61-96).  The issue date is the constant
Timestamp('2024-01-01'); the maturity date is issue date + maturity_years,
modelled as the year offset from the issue date. -/
structure Bond where
  bond_id : Nat
  face_value : ℚ
  coupon_rate : ℚ
  maturity_years : ℚ
  credit_rating : String
  issue_date : String
  maturity_date : ℚ
  is_tokenized : Bool
deriving DecidableEq

/-- An investor, one row of the self.investors DataFrame built by
generate_investors (lines 98-131). -/
structure Investor where
  investor_id : Nat
  inv_type : String
  assets : ℚ
  blockchain_preference : ℚ
  risk_aversion : ℚ
  investment_horizon : ℚ
deriving DecidableEq

/-- One row of a venue's market DataFrame (lines 133-167): the bond columns
that the trading step reads, plus the mutable market state columns, plus the
pandas row label the slice kept from self.bonds. -/
structure MarketRow where
  label : Nat
  bond_id : Nat
  face_value : ℚ
  maturity_years : ℚ
  is_tokenized : Bool
  price : ℚ
  daily_volume : ℚ
  bid_ask_spread : ℚ
  market_depth : ℤ
deriving DecidableEq

/-- The per-day macro state dict returned by _update_market_conditions
(lines 228-268). -/
structure MarketConditions where
  reference_rate : ℚ
  market_sentiment : ℚ
  volatility : ℚ
  event_impact : ℚ
deriving DecidableEq

/-- One transaction record appended by _simulate_daily_trading
(lines 352-361); the date is the day number. -/
structure Transaction where
  date : Nat
  bond_id : Nat
  investor_id : Nat
  price : ℚ
  amount : ℚ
  tx_type : String
  is_tokenized : Bool
deriving DecidableEq

/-- The daily metrics dict built at lines 367-374. -/
structure DailyMetrics where
  date : Nat
  avg_price : ℚ
  total_volume : ℚ
  avg_spread : ℚ
  num_transactions : Nat
  market_depth : ℚ
deriving DecidableEq

/-- Oracle for the random draws one call of _simulate_daily_trading makes:
per-row price noise (line 299), per-attempt bond index, investor index,
exponential amount draw and direction coin (lines 316-349), and the per-row
spread and depth adjustments of _update_market_for_next_day
(lines 400-405). -/
structure TradeDraws where
  priceNoise : Nat → ℚ
  bondIdx : Nat → Nat
  investorIdx : Nat → Nat
  expDraw : Nat → ℚ
  coin : Nat → ℚ
  spreadAdj : Nat → ℚ
  depthAdj : Nat → ℚ

/-- Oracle for all random draws of one whole run.  The source draws from the
global numpy generator, which BondMarketSimulator never seeds and whose seed
is not among the constructor parameters; the oracle therefore stands for
whatever values that global generator happens to produce. -/
structure RandomStream where
  faceValue : Nat → ℚ
  coupon : Nat → ℚ
  maturity : Nat → ℚ
  rating : Nat → String
  investorType : Nat → String
  assetsDraw : Nat → ℚ
  blockchainPref : Nat → ℚ
  riskAversion : Nat → ℚ
  horizon : Nat → ℚ
  depthTrad : Nat → Nat
  depthTok : Nat → Nat
  rateNoise : Nat → ℚ
  sentimentDelta : Nat → ℚ
  eventU : Nat → ℚ
  eventImpactDraw : Nat → ℚ
  tradDraws : Nat → TradeDraws
  tokDraws : Nat → TradeDraws

/-- The configuration accepted by BondMarketSimulator.__init__ (lines 31-47)
and by the module-level run_simulation (lines 875-904).  Exactly these five
scalars; the constructor performs no validation and has no seed parameter. -/
structure SimConfig where
  num_bonds : Nat
  num_investors : Nat
  simulation_days : Nat
  traditional_min_amount : ℚ
  tokenized_min_amount : ℚ
deriving DecidableEq

/-- The evolving state of BondMarketSimulator.run_simulation (lines 169-226):
the two venue tables, the sentiment carried in self.market_sentiment, the
accumulated metrics and transaction logs, and a trace of the MarketConditions
handed to both venues each day. -/
structure SimState where
  tradMarket : List MarketRow
  tokMarket : List MarketRow
  sentiment : ℚ
  tradMetrics : List DailyMetrics
  tokMetrics : List DailyMetrics
  tradTxs : List Transaction
  tokTxs : List Transaction
  conditions : List MarketConditions
deriving DecidableEq

/-- The traditional bond at position i of generate_bonds (lines 66-86):
bond_id = i+1, issue date 2024-01-01, maturity date = issue + maturity
years, not tokenized. -/
def mk_trad_bond (s : RandomStream) (i : Nat) : Bond :=
  { bond_id := i + 1
    face_value := s.faceValue i
    coupon_rate := s.coupon i
    maturity_years := s.maturity i
    credit_rating := s.rating i
    issue_date := "2024-01-01"
    maturity_date := s.maturity i
    is_tokenized := false }

/-- The tokenized duplicate of the traditional bond at position i
(lines 88-91): same columns, bond_id shifted by num_bonds, flag set. -/
def mk_tok_bond (B : Nat) (s : RandomStream) (i : Nat) : Bond :=
  { bond_id := i + 1 + B
    face_value := s.faceValue i
    coupon_rate := s.coupon i
    maturity_years := s.maturity i
    credit_rating := s.rating i
    issue_date := "2024-01-01"
    maturity_date := s.maturity i
    is_tokenized := true }

/-- generate_bonds (lines 61-96): B traditional bonds followed by their B
tokenized duplicates, concatenated with ignore_index=True so the combined
table has row labels 0..2B-1 (positions in this list). -/
def generate_bonds (B : Nat) (s : RandomStream) : List Bond :=
  ((nat_range_from 0 B).map (mk_trad_bond s))
    ++ ((nat_range_from 0 B).map (mk_tok_bond B s))

/-- The investor at position i of generate_investors (lines 98-131):
assets are the log-normal draw scaled by 10000, risk aversion is clipped to
[0.1, 0.9]. -/
def mk_investor (s : RandomStream) (i : Nat) : Investor :=
  { investor_id := i + 1
    inv_type := s.investorType i
    assets := s.assetsDraw i * 10000
    blockchain_preference := s.blockchainPref i
    risk_aversion := np_clip (s.riskAversion i) (1/10) (9/10)
    investment_horizon := s.horizon i }

/-- generate_investors (lines 98-131). -/
def generate_investors (I : Nat) (s : RandomStream) : List Investor :=
  (nat_range_from 0 I).map (mk_investor s)

/-- One row of a freshly initialized venue table (initialize_markets,
lines 141-167).  is_tok is the is_tokenized flag of the venue's first row
(market.iloc[0]), which the source uses to pick the column-wide formulas;
j is the position inside the venue table (for the Poisson depth draw),
p is the (label, bond) pair the slice kept from self.bonds. -/
def init_row (is_tok : Bool) (noise : Nat → Nat) (j : Nat) (p : Nat × Bond) : MarketRow :=
  { label := p.1
    bond_id := p.2.bond_id
    face_value := p.2.face_value
    maturity_years := p.2.maturity_years
    is_tokenized := p.2.is_tokenized
    price := p.2.face_value * (1 + (p.2.coupon_rate - 3/100) * p.2.maturity_years)
    daily_volume := if is_tok then p.2.face_value * (1/100) * 5 else p.2.face_value * (1/100)
    bid_ask_spread :=
      if is_tok then 1/1000 + (1/1000) * p.2.maturity_years
      else 5/1000 + (2/1000) * p.2.maturity_years
    market_depth := if is_tok then ((50 + noise j : Nat) : ℤ) else ((10 + noise j : Nat) : ℤ) }

/-- Initialization of one venue table (the body of the for-loop of
initialize_markets, lines 142-167).  Reading market.iloc[0] of an empty
slice raises IndexError. -/
def init_market (pairs : List (Nat × Bond)) (noise : Nat → Nat) :
    Except String (List MarketRow) :=
  match pairs.head? with
  | none => Except.error "IndexError"
  | some h => Except.ok (map_with_index (init_row h.2.is_tokenized noise) pairs)

/-- initialize_markets (lines 133-167): slice self.bonds by the tokenized
flag — each slice keeps its labels from the combined table — then initialize
the traditional venue first, then the tokenized venue, as the source's loop
does. -/
def init_markets (bonds : List Bond) (noiseT noiseK : Nat → Nat) :
    Except String (List MarketRow × List MarketRow) :=
  match init_market ((index_from 0 bonds).filter (fun p => p.2.is_tokenized == false)) noiseT with
  | Except.error e => Except.error e
  | Except.ok trad =>
    match init_market ((index_from 0 bonds).filter (fun p => p.2.is_tokenized == true)) noiseK with
    | Except.error e => Except.error e
    | Except.ok tok => Except.ok (trad, tok)

/-- _update_market_conditions (lines 228-268) for the given day, reading the
carried sentiment; returns the day's dict (whose market_sentiment is the new
carried value). -/
def update_market_conditions (simulation_days day : Nat) (sentiment : ℚ)
    (s : RandomStream) : MarketConditions :=
  let reference_rate := 3/100 + ((day : ℚ) / (simulation_days : ℚ)) * (1/100) + s.rateNoise day
  let new_sentiment :=
    if day = 0 then 0
    else np_clip ((4/5) * sentiment + (1/5) * s.sentimentDelta day) (-1) 1
  { reference_rate := reference_rate
    market_sentiment := new_sentiment
    volatility := (1/100) * (1 + (1/2) * |new_sentiment|)
    event_impact := if s.eventU day < 1/100 then s.eventImpactDraw day else 0 }

/-- The per-bond price update of _simulate_daily_trading (lines 286-300):
price *= (1 + price_impact) * price_change_factor * (1 + specific_noise),
with the idiosyncratic noise drawn per row position. -/
def price_update (rows : List MarketRow) (mc : MarketConditions) (noise : Nat → ℚ) :
    List MarketRow :=
  map_with_index (fun j r =>
    { r with price :=
        r.price * (1 + (-(r.maturity_years * (1/20)) * (mc.reference_rate - 3/100)))
          * (1 + mc.event_impact + mc.market_sentiment * (1/100)) * (1 + noise j) }) rows

/-- The day's attempted-transaction count (lines 305-313):
base = 2 * len(market); tokenized int(base*(1.5+sentiment)), traditional
int(base*(0.5+0.5*sentiment)); floored at 1.  int() truncates toward 0. -/
def num_transactions_target (nrows : Nat) (is_tok : Bool) (sentiment : ℚ) : Nat :=
  let base : ℚ := (nrows : ℚ) * 2
  let raw : ℚ := if is_tok then base * (3/2 + sentiment) else base * (1/2 + (1/2) * sentiment)
  (max 1 (int_trunc raw)).toNat

/-- The amount upper bound of lines 326-333: min(face_value, 10% of the
investor's assets) on the tokenized venue, min(5 * face_value, 10% of the
investor's assets) on the traditional venue. -/
def amount_cap (is_tok : Bool) (bond : MarketRow) (inv : Investor) : ℚ :=
  if is_tok then min bond.face_value (inv.assets * (1/10))
  else min (bond.face_value * 5) (inv.assets * (1/10))

/-- The sampled transaction amount of lines 339-340: minimum * (1 + the
Exp(2) draw), capped at the upper bound. -/
def transaction_amount (minAmt cap e : ℚ) : ℚ := min (minAmt * (1 + e)) cap

/-- One iteration of the transaction loop of _simulate_daily_trading
(lines 316-364).  bond_idx = randint(0, len(market)) is read positionally
with iloc; the skip when the investor cannot afford the venue minimum is a
plain continue; the final volume update reads updated_market
.at[bond_idx, daily_volume], a LABEL lookup, which raises KeyError when no
row carries that label.  randint(0, 0) on an empty table raises
ValueError. -/
def trade_attempt (investors : List Investor) (minAmt : ℚ) (is_tok : Bool) (day : Nat)
    (draws : TradeDraws) (st : List Transaction × List MarketRow) (t : Nat) :
    Except String (List Transaction × List MarketRow) :=
  let txs := st.1
  let rows := st.2
  let bi := draws.bondIdx t % rows.length
  match rows[bi]? with
  | none => Except.error "ValueError"
  | some bond =>
    match investors[draws.investorIdx t % investors.length]? with
    | none => Except.error "ValueError"
    | some inv =>
      if minAmt > inv.assets * (1/10) then Except.ok (txs, rows)
      else
        let amount := transaction_amount minAmt (amount_cap is_tok bond inv) (draws.expDraw t)
        let tx : Transaction :=
          if draws.coin t < 1/2 then
            { date := day, bond_id := bond.bond_id, investor_id := inv.investor_id
              price := bond.price * (1 + bond.bid_ask_spread / 2)
              amount := amount, tx_type := "buy", is_tokenized := is_tok }
          else
            { date := day, bond_id := bond.bond_id, investor_id := inv.investor_id
              price := bond.price * (1 - bond.bid_ask_spread / 2)
              amount := amount, tx_type := "sell", is_tokenized := is_tok }
        if rows.any (fun r => r.label == bi) then
          Except.ok (txs ++ [tx],
            rows.map (fun r =>
              if r.label == bi then { r with daily_volume := r.daily_volume + amount } else r))
        else Except.error "KeyError"

/-- The daily metrics dict (lines 367-374), computed from the updated market
after the transaction loop. -/
def compute_daily_metrics (day : Nat) (rows : List MarketRow) (txs : List Transaction) :
    DailyMetrics :=
  { date := day
    avg_price := rat_mean (rows.map (fun r => r.price))
    total_volume := (rows.map (fun r => r.daily_volume)).sum
    avg_spread := rat_mean (rows.map (fun r => r.bid_ask_spread))
    num_transactions := txs.length
    market_depth := rat_mean (rows.map (fun r => (r.market_depth : ℚ))) }

/-- _update_market_for_next_day (lines 381-406): price carried unchanged;
daily volume = floor volume * 0.2 + updated volume * 0.8, floor volume being
1% of face value and five times that for the tokenized venue (branch on
iloc[0], IndexError when empty); spread multiplied by a per-row normal(1,
0.05) draw; depth multiplied by a per-row normal(1, 0.1) draw and cast with
astype(int), which truncates toward zero. -/
def update_market_for_next_day (updated : List MarketRow) (spreadAdj depthAdj : Nat → ℚ) :
    Except String (List MarketRow) :=
  match updated.head? with
  | none => Except.error "IndexError"
  | some h =>
    let is_tok := h.is_tokenized
    Except.ok (map_with_index (fun j r =>
      { r with
        daily_volume :=
          (if is_tok then r.face_value * (1/100) * 5 * (1/5) else r.face_value * (1/100) * (1/5))
            + r.daily_volume * (4/5)
        bid_ask_spread := r.bid_ask_spread * spreadAdj j
        market_depth := int_trunc ((r.market_depth : ℚ) * depthAdj j) }) updated)

/-- _simulate_daily_trading (lines 270-379) for one venue and one day:
price update, transaction loop, metrics, then the carry-forward of the
market for the next day. -/
def simulate_daily_trading (investors : List Investor) (minAmt : ℚ)
    (market : List MarketRow) (day : Nat) (mc : MarketConditions) (is_tok : Bool)
    (draws : TradeDraws) :
    Except String (DailyMetrics × List Transaction × List MarketRow) :=
  let updated := price_update market mc draws.priceNoise
  let n := num_transactions_target updated.length is_tok mc.market_sentiment
  match (nat_range_from 0 n).foldlM (trade_attempt investors minAmt is_tok day draws)
      ([], updated) with
  | Except.error e => Except.error e
  | Except.ok (txs, upd2) =>
    match update_market_for_next_day upd2 draws.spreadAdj draws.depthAdj with
    | Except.error e => Except.error e
    | Except.ok next => Except.ok (compute_daily_metrics day upd2 txs, txs, next)

/-- One iteration of the day loop of run_simulation (lines 188-216): one
shared MarketConditions draw, the traditional venue's trading step, then the
tokenized venue's, appending metrics and transactions. -/
def sim_day (cfg : SimConfig) (investors : List Investor) (s : RandomStream)
    (st : SimState) (day : Nat) : Except String SimState :=
  let mc := update_market_conditions cfg.simulation_days day st.sentiment s
  match simulate_daily_trading investors cfg.traditional_min_amount st.tradMarket day mc
      false (s.tradDraws day) with
  | Except.error e => Except.error e
  | Except.ok (tm, tt, tnext) =>
    match simulate_daily_trading investors cfg.tokenized_min_amount st.tokMarket day mc
        true (s.tokDraws day) with
    | Except.error e => Except.error e
    | Except.ok (km, kt, knext) =>
      Except.ok
        { tradMarket := tnext, tokMarket := knext, sentiment := mc.market_sentiment
          tradMetrics := st.tradMetrics ++ [tm], tokMetrics := st.tokMetrics ++ [km]
          tradTxs := st.tradTxs ++ tt, tokTxs := st.tokTxs ++ kt
          conditions := st.conditions ++ [mc] }

/-- The whole engine: BondMarketSimulator.run_simulation (lines 169-226) as
invoked by the module-level run_simulation wrapper (lines 875-904) on a fresh
simulator: generate bonds and investors, initialize both venue tables, then
run the day loop.  The oracle s stands for the unseeded global numpy
generator. -/
def run_simulation (cfg : SimConfig) (s : RandomStream) : Except String SimState :=
  let bonds := generate_bonds cfg.num_bonds s
  let investors := generate_investors cfg.num_investors s
  match init_markets bonds s.depthTrad s.depthTok with
  | Except.error e => Except.error e
  | Except.ok (tradM, tokM) =>
    (nat_range_from 0 cfg.simulation_days).foldlM (sim_day cfg investors s)
      { tradMarket := tradM, tokMarket := tokM, sentiment := 0
        tradMetrics := [], tokMetrics := [], tradTxs := [], tokTxs := [], conditions := [] }

/-- Trade draws with every noise at its central value: zero noise, index
draws 0, spread and depth adjustments 1. -/
def zeroTD : TradeDraws :=
  { priceNoise := fun _ => 0, bondIdx := fun _ => 0, investorIdx := fun _ => 0
    expDraw := fun _ => 0, coin := fun _ => 0, spreadAdj := fun _ => 1, depthAdj := fun _ => 1 }

/-- A concrete oracle: every bond has face value 1000, coupon 3 percent and
maturity 1 year; every investor draws 0 assets, so no investor can afford
either venue's minimum and every transaction attempt is skipped. -/
def poorStream : RandomStream :=
  { faceValue := fun _ => 1000, coupon := fun _ => 3/100, maturity := fun _ => 1
    rating := fun _ => "A", investorType := fun _ => "Retail", assetsDraw := fun _ => 0
    blockchainPref := fun _ => 0, riskAversion := fun _ => 1/2, horizon := fun _ => 1
    depthTrad := fun _ => 0, depthTok := fun _ => 0
    rateNoise := fun _ => 0, sentimentDelta := fun _ => 0
    eventU := fun _ => 1, eventImpactDraw := fun _ => 0
    tradDraws := fun _ => zeroTD, tokDraws := fun _ => zeroTD }

/-- Like poorStream, but every investor draws assets 100000 (draw 10 scaled
by 10000), enough to trade on both venues. -/
def richStream : RandomStream := { poorStream with assetsDraw := fun _ => 10 }

/-- Like poorStream, but the carry-forward spread noise is 1/10 for the
traditional venue and 4 for the tokenized venue on every day. -/
def c8Stream : RandomStream :=
  { poorStream with
    tradDraws := fun _ => { zeroTD with spreadAdj := fun _ => 1/10 }
    tokDraws := fun _ => { zeroTD with spreadAdj := fun _ => 4 } }

/-- 1 bond, 1 investor, 1 day, the default venue minimums. -/
def cfg1 : SimConfig := ⟨1, 1, 1, 10000, 100⟩

/-- The spec's end-to-end scenario: 2 bonds, 5 investors, 3 days,
traditional minimum 10000, tokenized minimum 100.  The spec's seed=42
cannot appear: SimConfig, like the source constructor, has no seed field. -/
def cfg2 : SimConfig := ⟨2, 5, 3, 10000, 100⟩

/-- A configuration with a non-positive day count and a non-positive
tokenized minimum amount. -/
def cfgDays0 : SimConfig := ⟨2, 5, 0, 10000, -100⟩

/-- The initialized venue tables for 1 bond under poorStream. -/
def init1 : Except String (List MarketRow × List MarketRow) :=
  init_markets (generate_bonds 1 poorStream) poorStream.depthTrad poorStream.depthTok

/-- The traditional venue table of init1. -/
def tradRows1 : List MarketRow :=
  match init1 with
  | Except.ok p => p.1
  | Except.error _ => []

/-- The tokenized venue table of init1. -/
def tokRows1 : List MarketRow :=
  match init1 with
  | Except.ok p => p.2
  | Except.error _ => []

/-- The final state of the 1-bond 1-day run under poorStream. -/
def c6_state : SimState :=
  match run_simulation cfg1 poorStream with
  | Except.ok st => st
  | Except.error _ => ⟨[], [], 0, [], [], [], [], []⟩

/-- A concrete traditional market row with standing depth 3. -/
def rowD : MarketRow :=
  { label := 0, bond_id := 1, face_value := 1000, maturity_years := 1, is_tokenized := false
    price := 1000, daily_volume := 10, bid_ask_spread := 7/1000, market_depth := 3 }

/-- The day-0 market conditions of a 3-day run (sentiment 0, no event). -/
def mc0 : MarketConditions := update_market_conditions 3 0 0 poorStream

/-- The first investor under richStream: assets 100000. -/
def invRich : Investor := mk_investor richStream 0

/-- The first investor under poorStream: assets 0. -/
def invPoor : Investor := mk_investor poorStream 0

/-- The traditional venue table produced by initializing a generate_bonds
population: labels 0..B-1, iloc[0] flag false. -/
def trad_init (B : Nat) (s : RandomStream) : List MarketRow :=
  map_with_index (init_row false s.depthTrad)
    (index_from 0 ((nat_range_from 0 B).map (mk_trad_bond s)))

/-- The tokenized venue table produced by initializing a generate_bonds
population: labels B..2B-1 kept from the combined table, iloc[0] flag
true. -/
def tok_init (B : Nat) (s : RandomStream) : List MarketRow :=
  map_with_index (init_row true s.depthTok)
    (index_from B ((nat_range_from 0 B).map (mk_tok_bond B s)))

/-- Equality on Except values with decidable components is decidable. -/
instance instDecEqExceptStr {α : Type} [DecidableEq α] : DecidableEq (Except String α) :=
  fun a b =>
  match a, b with
  | Except.error e, Except.error f =>
    if h : e = f then Decidable.isTrue (by rw [h])
    else Decidable.isFalse (fun hc => h (by injection hc))
  | Except.ok x, Except.ok y =>
    if h : x = y then Decidable.isTrue (by rw [h])
    else Decidable.isFalse (fun hc => h (by injection hc))
  | Except.error _, Except.ok _ => Decidable.isFalse (fun hc => by injection hc)
  | Except.ok _, Except.error _ => Decidable.isFalse (fun hc => by injection hc)

/-- The constant carry-forward adjustment 1. -/
def adjOne : Nat → ℚ := fun _ => 1

/-- The constant carry-forward adjustment 9/10. -/
def adjNine : Nat → ℚ := fun _ => 9/10

/-- The first row of the traditional venue table of init1. -/
def rowT1 : MarketRow :=
  match tradRows1 with
  | r :: _ => r
  | [] => rowD

/-- The first row of the tokenized venue table of init1. -/
def rowK1 : MarketRow :=
  match tokRows1 with
  | r :: _ => r
  | [] => rowD

/-- The state returned by one traditional-venue transaction attempt on
tradRows1 by invRich with central draws. -/
def c3_result : List Transaction × List MarketRow :=
  match trade_attempt [invRich] 10000 false 0 zeroTD ([], tradRows1) 0 with
  | Except.ok p => p
  | Except.error _ => ([], [])

/-- The carried-forward market of rowD under adjustments 1 and 9/10. -/
def c5_out : List MarketRow :=
  match update_market_for_next_day [rowD] adjOne adjNine with
  | Except.ok l => l
  | Except.error _ => []

/-- The first row of c5_out. -/
def rowD2 : MarketRow :=
  match c5_out with
  | r :: _ => r
  | [] => rowD

/-- A configuration with bond count 0. -/
def cfgB0 : SimConfig := ⟨0, 5, 3, 10000, 100⟩

theorem except_ok_bind {α β : Type} (a : α) (f : α → Except String β) :
    (Except.ok a >>= f) = f a := rfl

theorem nat_range_from_len (n start : Nat) : (nat_range_from start n).length = n := by
  induction n generalizing start with
  | zero => rfl
  | succ k ih => simp [nat_range_from, ih]

theorem getq_nat_range_from (n start i : Nat) :
    (nat_range_from start n)[i]? = if i < n then some (start + i) else none := by
  induction n generalizing start i with
  | zero => simp [nat_range_from]
  | succ k ih =>
    cases i with
    | zero => simp [nat_range_from]
    | succ j =>
      simp only [nat_range_from, List.getElem?_cons_succ, ih]
      rcases Nat.lt_or_ge j k with h | h
      · rw [if_pos h, if_pos (by omega : j + 1 < k + 1)]
        have harith : start + 1 + j = start + (j + 1) := by omega
        rw [harith]
      · rw [if_neg (by omega), if_neg (by omega)]

theorem mem_nat_range_from (n start x : Nat) :
    x ∈ nat_range_from start n ↔ start ≤ x ∧ x < start + n := by
  induction n generalizing start with
  | zero =>
    simp only [nat_range_from, List.not_mem_nil, false_iff]
    omega
  | succ k ih =>
    simp only [nat_range_from, List.mem_cons, ih]
    omega

theorem len_map_from_index (f : Nat → α → β) (l : List α) :
    ∀ n, (map_from_index f n l).length = l.length := by
  induction l with
  | nil => intro n; rfl
  | cons a as ih => intro n; simp [map_from_index, ih]

theorem getq_map_from_index (f : Nat → α → β) (l : List α) :
    ∀ n i, (map_from_index f n l)[i]? = (l[i]?).map (f (n + i)) := by
  induction l with
  | nil => intro n i; simp [map_from_index]
  | cons a as ih =>
    intro n i
    cases i with
    | zero => simp [map_from_index]
    | succ j =>
      simp only [map_from_index, List.getElem?_cons_succ, ih (n + 1) j]
      have : n + 1 + j = n + (j + 1) := by omega
      rw [this]

theorem len_index_from (l : List α) : ∀ n, (index_from n l).length = l.length := by
  induction l with
  | nil => intro n; rfl
  | cons a as ih => intro n; simp [index_from, ih]

theorem getq_index_from (l : List α) :
    ∀ n i, (index_from n l)[i]? = (l[i]?).map (fun a => (n + i, a)) := by
  induction l with
  | nil => intro n i; simp [index_from]
  | cons a as ih =>
    intro n i
    cases i with
    | zero => simp [index_from]
    | succ j =>
      simp only [index_from, List.getElem?_cons_succ, ih (n + 1) j]
      have : n + 1 + j = n + (j + 1) := by omega
      rw [this]

theorem index_from_append (l₁ l₂ : List α) :
    ∀ n, index_from n (l₁ ++ l₂) = index_from n l₁ ++ index_from (n + l₁.length) l₂ := by
  induction l₁ with
  | nil => intro n; simp [index_from]
  | cons a as ih =>
    intro n
    have hlen : n + (a :: as).length = n + 1 + as.length := by
      simp [List.length_cons]
      omega
    rw [List.cons_append, hlen]
    show (n, a) :: index_from (n + 1) (as ++ l₂) = _
    rw [ih (n + 1)]
    rfl

theorem map_fst_index_from (l : List α) :
    ∀ n, (index_from n l).map Prod.fst = nat_range_from n l.length := by
  induction l with
  | nil => intro n; rfl
  | cons a as ih => intro n; simp [index_from, nat_range_from, ih]

theorem filter_index_from_keep (l : List α) (p : Nat × α → Bool)
    (hp : ∀ x ∈ l, ∀ n, p (n, x) = true) :
    ∀ n, (index_from n l).filter p = index_from n l := by
  induction l with
  | nil => intro n; rfl
  | cons a as ih =>
    intro n
    have ha := hp a (by simp) n
    simp only [index_from, List.filter_cons, ha, if_true]
    rw [ih (fun x hx => hp x (by simp [hx])) (n + 1)]

theorem filter_index_from_drop (l : List α) (p : Nat × α → Bool)
    (hp : ∀ x ∈ l, ∀ n, p (n, x) = false) :
    ∀ n, (index_from n l).filter p = [] := by
  induction l with
  | nil => intro n; rfl
  | cons a as ih =>
    intro n
    have ha := hp a (by simp) n
    simp only [index_from, List.filter_cons, ha]
    exact ih (fun x hx => hp x (by simp [hx])) (n + 1)

theorem map_label_map_from_index (is_tok : Bool) (noise : Nat → Nat)
    (pairs : List (Nat × Bond)) :
    ∀ n, (map_from_index (init_row is_tok noise) n pairs).map (fun r => r.label)
      = pairs.map Prod.fst := by
  induction pairs with
  | nil => intro n; rfl
  | cons a as ih => intro n; simp [map_from_index, init_row, ih]

theorem foldlM_fixed {σ α : Type} (f : σ → α → Except String σ) (st : σ) (l : List α)
    (h : ∀ a ∈ l, f st a = Except.ok st) : l.foldlM f st = Except.ok st := by
  induction l with
  | nil => rfl
  | cons a as ih =>
    rw [List.foldlM_cons, h a (by simp), except_ok_bind]
    exact ih (fun x hx => h x (by simp [hx]))

theorem len_trad_init (B : Nat) (s : RandomStream) : (trad_init B s).length = B := by
  simp [trad_init, map_with_index, len_map_from_index, len_index_from, nat_range_from_len]

theorem len_tok_init (B : Nat) (s : RandomStream) : (tok_init B s).length = B := by
  simp [tok_init, map_with_index, len_map_from_index, len_index_from, nat_range_from_len]

theorem getq_trad_init (B : Nat) (s : RandomStream) (i : Nat) :
    (trad_init B s)[i]? =
      if i < B then some (init_row false s.depthTrad i (i, mk_trad_bond s i)) else none := by
  rcases Nat.lt_or_ge i B with h | h
  · simp [trad_init, map_with_index, getq_map_from_index, getq_index_from,
      List.getElem?_map, getq_nat_range_from, h]
  · simp [trad_init, map_with_index, getq_map_from_index, getq_index_from,
      List.getElem?_map, getq_nat_range_from, Nat.not_lt.mpr h]

theorem getq_tok_init (B : Nat) (s : RandomStream) (i : Nat) :
    (tok_init B s)[i]? =
      if i < B then some (init_row true s.depthTok i (B + i, mk_tok_bond B s i)) else none := by
  rcases Nat.lt_or_ge i B with h | h
  · simp [tok_init, map_with_index, getq_map_from_index, getq_index_from,
      List.getElem?_map, getq_nat_range_from, h]
  · simp [tok_init, map_with_index, getq_map_from_index, getq_index_from,
      List.getElem?_map, getq_nat_range_from, Nat.not_lt.mpr h]

theorem tok_init_labels (B : Nat) (s : RandomStream) :
    (tok_init B s).map (fun r => r.label) = nat_range_from B B := by
  rw [tok_init, map_with_index, map_label_map_from_index, map_fst_index_from]
  simp [nat_range_from_len]

theorem init_market_of_generate (B : Nat) (hB : 0 < B)
    (mk : Nat → Bond) (tk : Bool) (noise : Nat → Nat) (start : Nat)
    (hflag : (mk 0).is_tokenized = tk) :
    init_market (index_from start ((nat_range_from 0 B).map mk)) noise
      = Except.ok (map_with_index (init_row tk noise)
          (index_from start ((nat_range_from 0 B).map mk))) := by
  have h0 : ((nat_range_from 0 B).map mk)[0]? = some (mk 0) := by
    rw [List.getElem?_map, getq_nat_range_from]
    simp [hB]
  have hh : (index_from start ((nat_range_from 0 B).map mk)).head?
      = some (start, mk 0) := by
    rw [List.head?_eq_getElem?, getq_index_from, h0]
    rfl
  unfold init_market
  rw [hh]
  show Except.ok (map_with_index (init_row (mk 0).is_tokenized noise) _) = _
  rw [hflag]

theorem init_markets_generate (B : Nat) (hB : 0 < B) (s : RandomStream) :
    init_markets (generate_bonds B s) s.depthTrad s.depthTok
      = Except.ok (trad_init B s, tok_init B s) := by
  have hlenT : ((nat_range_from 0 B).map (mk_trad_bond s)).length = B := by
    simp [nat_range_from_len]
  have hsplit : index_from 0 (generate_bonds B s)
      = index_from 0 ((nat_range_from 0 B).map (mk_trad_bond s))
        ++ index_from B ((nat_range_from 0 B).map (mk_tok_bond B s)) := by
    rw [generate_bonds, index_from_append, hlenT]
    simp
  have hkeepF : (index_from 0 ((nat_range_from 0 B).map (mk_trad_bond s))).filter
      (fun p => p.2.is_tokenized == false) = index_from 0 ((nat_range_from 0 B).map (mk_trad_bond s)) := by
    apply filter_index_from_keep
    intro x hx n
    obtain ⟨i, _, rfl⟩ := List.mem_map.mp hx
    rfl
  have hdropF : (index_from B ((nat_range_from 0 B).map (mk_tok_bond B s))).filter
      (fun p => p.2.is_tokenized == false) = [] := by
    apply filter_index_from_drop
    intro x hx n
    obtain ⟨i, _, rfl⟩ := List.mem_map.mp hx
    rfl
  have hdropT : (index_from 0 ((nat_range_from 0 B).map (mk_trad_bond s))).filter
      (fun p => p.2.is_tokenized == true) = [] := by
    apply filter_index_from_drop
    intro x hx n
    obtain ⟨i, _, rfl⟩ := List.mem_map.mp hx
    rfl
  have hkeepT : (index_from B ((nat_range_from 0 B).map (mk_tok_bond B s))).filter
      (fun p => p.2.is_tokenized == true) = index_from B ((nat_range_from 0 B).map (mk_tok_bond B s)) := by
    apply filter_index_from_keep
    intro x hx n
    obtain ⟨i, _, rfl⟩ := List.mem_map.mp hx
    rfl
  unfold init_markets
  rw [hsplit, List.filter_append, List.filter_append, hkeepF, hdropF, hdropT, hkeepT,
    List.append_nil, List.nil_append,
    init_market_of_generate B hB (mk_trad_bond s) false s.depthTrad 0 rfl,
    init_market_of_generate B hB (mk_tok_bond B s) true s.depthTok B rfl]
  rfl

theorem map_from_index_label_invariant (g : Nat → MarketRow → MarketRow)
    (hg : ∀ j r, (g j r).label = r.label) (rows : List MarketRow) :
    ∀ n, (map_from_index g n rows).map (fun r => r.label)
      = rows.map (fun r => r.label) := by
  induction rows with
  | nil => intro n; rfl
  | cons a as ih => intro n; simp [map_from_index, hg, ih]

theorem filter_all_keep (l : List α) (p : α → Bool) (hp : ∀ x ∈ l, p x = true) :
    l.filter p = l := by
  induction l with
  | nil => rfl
  | cons a as ih =>
    rw [List.filter_cons]
    rw [hp a (by simp)]
    simp only [if_true]
    rw [ih (fun x hx => hp x (by simp [hx]))]

theorem filter_all_drop (l : List α) (p : α → Bool) (hp : ∀ x ∈ l, p x = false) :
    l.filter p = [] := by
  induction l with
  | nil => rfl
  | cons a as ih =>
    rw [List.filter_cons]
    rw [hp a (by simp)]
    simp only [Bool.false_eq_true, if_false]
    exact ih (fun x hx => hp x (by simp [hx]))

theorem transaction_amount_bounds (minAmt cap e : ℚ) (hmin : 0 ≤ minAmt) (he : 0 ≤ e) :
    transaction_amount minAmt cap e ≤ cap
    ∧ min minAmt cap ≤ transaction_amount minAmt cap e
    ∧ (minAmt ≤ cap → minAmt ≤ transaction_amount minAmt cap e) := by
  unfold transaction_amount
  have h1 : minAmt ≤ minAmt * (1 + e) := by nlinarith
  refine ⟨min_le_right _ _, ?_, ?_⟩
  · exact le_min (le_trans (min_le_left _ _) h1) (min_le_right _ _)
  · intro hle
    exact le_min h1 hle

theorem update_next_day_head (rows : List MarketRow) (adjS adjD : Nat → ℚ)
    (out : List MarketRow)
    (hout : update_market_for_next_day rows adjS adjD = Except.ok out) :
    ∃ h0, rows.head? = some h0 := by
  cases hh : rows.head? with
  | none =>
    unfold update_market_for_next_day at hout
    rw [hh] at hout
    exact Except.noConfusion hout
  | some h => exact ⟨h, rfl⟩

theorem update_next_day_fields (rows : List MarketRow) (h0 : MarketRow)
    (adjS adjD : Nat → ℚ) (out : List MarketRow)
    (hh : rows.head? = some h0)
    (hout : update_market_for_next_day rows adjS adjD = Except.ok out) :
    out.length = rows.length
    ∧ ∀ j r r2, rows[j]? = some r → out[j]? = some r2 →
        r2.price = r.price
        ∧ r2.daily_volume = (if h0.is_tokenized then r.face_value * (1/100) * 5 * (1/5)
            else r.face_value * (1/100) * (1/5)) + r.daily_volume * (4/5)
        ∧ r2.bid_ask_spread = r.bid_ask_spread * adjS j
        ∧ r2.market_depth = int_trunc ((r.market_depth : ℚ) * adjD j) := by
  unfold update_market_for_next_day at hout
  rw [hh] at hout
  have hout2 : Except.ok (map_with_index (fun j r =>
      { r with
        daily_volume :=
          (if h0.is_tokenized then r.face_value * (1/100) * 5 * (1/5)
            else r.face_value * (1/100) * (1/5)) + r.daily_volume * (4/5)
        bid_ask_spread := r.bid_ask_spread * adjS j
        market_depth := int_trunc ((r.market_depth : ℚ) * adjD j) }) rows)
      = (Except.ok out : Except String (List MarketRow)) := hout
  have hout3 := hout2
  injection hout3 with hmap
  constructor
  · rw [← hmap]
    exact len_map_from_index _ rows 0
  · intro j r r2 hr hr2
    rw [← hmap] at hr2
    have hq := getq_map_from_index (fun j r =>
      { r with
        daily_volume :=
          (if h0.is_tokenized then r.face_value * (1/100) * 5 * (1/5)
            else r.face_value * (1/100) * (1/5)) + r.daily_volume * (4/5)
        bid_ask_spread := r.bid_ask_spread * adjS j
        market_depth := int_trunc ((r.market_depth : ℚ) * adjD j) }) rows 0 j
    rw [hr] at hq
    simp only [Nat.zero_add, Option.map_some] at hq
    rw [map_with_index] at hr2
    rw [hq] at hr2
    injection hr2 with hr3
    rw [← hr3]
    exact ⟨rfl, rfl, rfl, rfl⟩

/-- Claim C1: the spec's end-to-end scenario (2 bonds, 5 investors, 3 days,
traditional minimum 10000, tokenized minimum 100) is claimed to terminate
normally with exactly 3 DailyMetrics rows per venue, positive volumes and
nonnegative depth.  The code instead aborts on day 0: the first executed
tokenized transaction performs updated_market.at[bond_idx, daily_volume]
with a positional index drawn from [0, 2) while the tokenized table's row
labels are 2 and 3, so the label read raises KeyError.  This theorem
evaluates the engine at the failing configuration with an oracle under
which some investor can afford the tokenized minimum (true of essentially
every draw of the unseeded generator; the spec's seed 42 cannot even be
supplied, since the constructor has no seed parameter). -/
theorem c1_scenario_aborts_with_keyerror :
    run_simulation cfg2 richStream = Except.error "KeyError" := by
  with_unfolding_all rfl

/-- Claim C4: the claim says the random seed is one of the engine's
configuration inputs and that two runs with the same configuration and seed
are byte-identical.  SimConfig — faithful to BondMarketSimulator.__init__
and to the module-level run_simulation — has no seed field, and the source
never seeds the global numpy generator, so the configuration alone does not
determine the output: the same cfg2 produces different results under two
possible draw sequences of the unseeded global generator (one completes,
one aborts with KeyError). -/
theorem c4_output_not_determined_by_config :
    run_simulation cfg2 poorStream ≠ run_simulation cfg2 richStream := by
  with_unfolding_all decide

/-- Claim C2: for every positive bond count B, the tokenized venue table's
row labels are exactly the interval [B, 2B) (first conjunct), the per-day
price update preserves those labels (second conjunct), and every executed
tokenized transaction — one whose drawn investor exists and can afford the
venue minimum — reaches the missing-label error branch of the daily-volume
update, because the label it looks up is the positional draw bond_idx < B
while every row label is at least B; the attempt returns the KeyError
branch and no row's daily volume is ever incremented (third conjunct). -/
theorem c2_tokenized_volume_lookup_misses (B : Nat) (hB : 0 < B) (s : RandomStream)
    (tradRows tokRows : List MarketRow)
    (hinit : init_markets (generate_bonds B s) s.depthTrad s.depthTok
      = Except.ok (tradRows, tokRows)) :
    ((tokRows.map (fun r => r.label) = nat_range_from B B)
      ∧ ∀ x : Nat, x ∈ tokRows.map (fun r => r.label) ↔ B ≤ x ∧ x < 2 * B)
    ∧ (∀ (mc : MarketConditions) (noise : Nat → ℚ),
        (price_update tokRows mc noise).map (fun r => r.label)
          = tokRows.map (fun r => r.label))
    ∧ (∀ (rows : List MarketRow), rows.length = B → (∀ r ∈ rows, B ≤ r.label) →
        ∀ (investors : List Investor) (minAmt : ℚ) (day t : Nat) (draws : TradeDraws)
          (txs : List Transaction) (inv : Investor),
          investors[draws.investorIdx t % investors.length]? = some inv →
          ¬ (minAmt > inv.assets * (1/10)) →
          trade_attempt investors minAmt true day draws (txs, rows) t
            = Except.error "KeyError") := by
  rw [init_markets_generate B hB s] at hinit
  have hpair := hinit
  simp only [Except.ok.injEq, Prod.mk.injEq] at hpair
  obtain ⟨hT, hK⟩ := hpair
  subst hK
  refine ⟨⟨tok_init_labels B s, ?_⟩, ?_, ?_⟩
  · intro x
    rw [tok_init_labels B s, mem_nat_range_from]
    omega
  · intro mc noise
    exact map_from_index_label_invariant
      (fun j r =>
        { r with price :=
            r.price * (1 + (-(r.maturity_years * (1/20)) * (mc.reference_rate - 3/100)))
              * (1 + mc.event_impact + mc.market_sentiment * (1/100)) * (1 + noise j) })
      (fun j r => rfl) (tok_init B s) 0
  · intro rows hlen hlab investors minAmt day t draws txs inv hinv hskip
    have hpos : 0 < rows.length := by omega
    have hbi : draws.bondIdx t % rows.length < rows.length := Nat.mod_lt _ hpos
    have hbond := List.getElem?_eq_getElem hbi
    have hany : rows.any (fun r => r.label == draws.bondIdx t % rows.length) = false := by
      rw [List.any_eq_false]
      intro r hr
      have hge := hlab r hr
      simp only [beq_iff_eq]
      omega
    simp only [trade_attempt, hbond, hinv]
    rw [if_neg hskip, hany]
    rfl

/-- Witness for C2: with one bond under the concrete oracle, the tokenized
table's sole label is 1, and the attempt by the wealthy investor at the
tokenized minimum 100 ends in the KeyError branch. -/
theorem c2_tokenized_volume_lookup_misses_witness :
    trade_attempt [invRich] 100 true 0 zeroTD ([], tokRows1) 0
      = Except.error "KeyError" := by
  have h := c2_tokenized_volume_lookup_misses 1 (by decide) poorStream tradRows1 tokRows1
    (by with_unfolding_all rfl)
  exact h.2.2 tokRows1 (by with_unfolding_all rfl) (by with_unfolding_all decide)
    [invRich] 100 0 0 zeroTD [] invRich (by with_unfolding_all rfl)
    (by with_unfolding_all decide)

/-- Claim C3, counterexample: a transaction recorded by the Daily Trading
Step whose amount is below the venue minimum.  Traditional venue, bond face
value 1000 (so cap = min(5000, 10000) = 5000), minimum 10000, investor
assets 100000 (so the skip does not fire), central draws: the recorded
amount is 5000, strictly below the configured minimum 10000.  This refutes
the claim that every recorded amount is at least the venue minimum. -/
theorem c3_amount_below_minimum :
    ((simulate_daily_trading [invRich] 10000 tradRows1 0 mc0 false zeroTD).toOption.map
      (fun p => p.2.1.map (fun tx => tx.amount))) = some [5000]
    ∧ ¬ ((10000 : ℚ) ≤ 5000) := by
  constructor
  · with_unfolding_all rfl
  · with_unfolding_all decide

/-- Claim C3 as amended: every transaction recorded by an executed
transaction attempt (drawn bond and investor exist, the skip did not fire,
the Exp(2) draw is nonnegative as its support dictates, and the configured
minimum is nonnegative) has amount at most the cap
min(cap_multiple * face_value, 10% of assets) — cap multiple 1 tokenized,
5 traditional, as amount_cap states — and at least min(minimum, cap); when
the cap is at least the minimum this lower bound is the venue minimum
itself, but when the cap falls below the minimum the recorded amount is the
cap, which is below the minimum. -/
theorem c3_amount_bounds (investors : List Investor) (minAmt : ℚ) (is_tok : Bool)
    (day t : Nat) (draws : TradeDraws) (txs : List Transaction) (rows : List MarketRow)
    (bond : MarketRow) (inv : Investor)
    (hb : rows[draws.bondIdx t % rows.length]? = some bond)
    (hi : investors[draws.investorIdx t % investors.length]? = some inv)
    (hskip : ¬ (minAmt > inv.assets * (1/10)))
    (hexp : 0 ≤ draws.expDraw t) (hmin : 0 ≤ minAmt) :
    ∀ txs2 rows2,
      trade_attempt investors minAmt is_tok day draws (txs, rows) t
        = Except.ok (txs2, rows2) →
      ∃ tx, txs2 = txs ++ [tx]
        ∧ tx.amount ≤ amount_cap is_tok bond inv
        ∧ min minAmt (amount_cap is_tok bond inv) ≤ tx.amount
        ∧ (minAmt ≤ amount_cap is_tok bond inv → minAmt ≤ tx.amount) := by
  intro txs2 rows2 hok
  simp only [trade_attempt, hb, hi] at hok
  rw [if_neg hskip] at hok
  split at hok
  · injection hok with h1
    injection h1 with hts hrs
    subst hts
    refine ⟨_, rfl, ?_, ?_, ?_⟩
    · split
      · exact (transaction_amount_bounds minAmt (amount_cap is_tok bond inv)
          (draws.expDraw t) hmin hexp).1
      · exact (transaction_amount_bounds minAmt (amount_cap is_tok bond inv)
          (draws.expDraw t) hmin hexp).1
    · split
      · exact (transaction_amount_bounds minAmt (amount_cap is_tok bond inv)
          (draws.expDraw t) hmin hexp).2.1
      · exact (transaction_amount_bounds minAmt (amount_cap is_tok bond inv)
          (draws.expDraw t) hmin hexp).2.1
    · intro hle
      split
      · exact (transaction_amount_bounds minAmt (amount_cap is_tok bond inv)
          (draws.expDraw t) hmin hexp).2.2 hle
      · exact (transaction_amount_bounds minAmt (amount_cap is_tok bond inv)
          (draws.expDraw t) hmin hexp).2.2 hle
  · exact Except.noConfusion hok

/-- Witness for C3 as amended: the concrete traditional-venue attempt of the
counterexample satisfies the amended bounds — the recorded amount 5000 lies
between min(10000, cap) and the cap. -/
theorem c3_amount_bounds_witness :
    ∃ tx, c3_result.1 = [] ++ [tx]
      ∧ tx.amount ≤ amount_cap false rowT1 invRich
      ∧ min 10000 (amount_cap false rowT1 invRich) ≤ tx.amount
      ∧ ((10000 : ℚ) ≤ amount_cap false rowT1 invRich → (10000 : ℚ) ≤ tx.amount) :=
  c3_amount_bounds [invRich] 10000 false 0 0 zeroTD [] tradRows1 rowT1 invRich
    (by with_unfolding_all rfl) (by with_unfolding_all rfl) (by with_unfolding_all decide)
    (by with_unfolding_all decide) (by with_unfolding_all decide)
    c3_result.1 c3_result.2 (by with_unfolding_all rfl)

/-- Claim C5, counterexample: the State Carry-Forward does not round the
next depth.  On a traditional row of standing depth 3 with depth noise
9/10 (product 27/10), the code's astype(int) cast truncates to 2, while
the claimed round(27/10) is 3. -/
theorem c5_depth_truncated_not_rounded :
    ((update_market_for_next_day [rowD] adjOne adjNine).toOption.map
      (fun l => l.map (fun r => r.market_depth))) = some [2]
    ∧ spec_round (((3 : ℤ) : ℚ) * adjNine 0) = 3
    ∧ ((2 : ℤ) ≠ 3) := by
  refine ⟨by with_unfolding_all rfl, by with_unfolding_all rfl, by decide⟩

/-- Claim C5 as amended: for every row of the carried-forward market, the
next day's volume is floor_volume * 0.2 + updated_volume * 0.8 with the
floor volume 1 percent of face value and five times that on the tokenized
venue, the next spread is the updated spread times the noise draw, the
price is carried forward unchanged, and the next depth is the updated
depth times the noise draw truncated toward zero (astype(int)) — not
rounded to the nearest integer as the claim stated. -/
theorem c5_carry_forward_fields (rows : List MarketRow) (h0 : MarketRow)
    (adjS adjD : Nat → ℚ) (out : List MarketRow)
    (hh : rows.head? = some h0)
    (hout : update_market_for_next_day rows adjS adjD = Except.ok out) :
    out.length = rows.length
    ∧ ∀ j r r2, rows[j]? = some r → out[j]? = some r2 →
        r2.price = r.price
        ∧ r2.daily_volume = (if h0.is_tokenized then r.face_value * (1/100) * 5 * (1/5)
            else r.face_value * (1/100) * (1/5)) + r.daily_volume * (4/5)
        ∧ r2.bid_ask_spread = r.bid_ask_spread * adjS j
        ∧ r2.market_depth = int_trunc ((r.market_depth : ℚ) * adjD j) :=
  update_next_day_fields rows h0 adjS adjD out hh hout

/-- Witness for C5 as amended: on the concrete row of depth 3 with
adjustments 1 and 9/10, the price is carried unchanged and the depth is the
truncated product. -/
theorem c5_carry_forward_fields_witness :
    rowD2.price = rowD.price
      ∧ rowD2.market_depth = int_trunc ((rowD.market_depth : ℚ) * adjNine 0) := by
  have h := c5_carry_forward_fields [rowD] rowD adjOne adjNine c5_out
    (by with_unfolding_all rfl) (by with_unfolding_all rfl)
  have h2 := h.2 0 rowD rowD2 (by with_unfolding_all rfl) (by with_unfolding_all rfl)
  exact ⟨h2.1, h2.2.2.2⟩

/-- Claim C6: the sentiment state machine.  On day 0 the sentiment is forced
to its initial value 0; on every later day it is
clip(0.8 * previous + 0.2 * delta, -1, 1); for every previous value and
every delta the updated sentiment lies in [-1, 1]; and a run with day count
1 invokes the Market-Condition Process exactly once, with sentiment 0. -/
theorem c6_sentiment_process (cfg : SimConfig) (s : RandomStream) (st : SimState)
    (days day : Nat) (prev : ℚ) (s2 : RandomStream)
    (hday1 : cfg.simulation_days = 1)
    (hrun : run_simulation cfg s = Except.ok st) :
    (update_market_conditions days 0 prev s2).market_sentiment = 0
    ∧ (0 < day → (update_market_conditions days day prev s2).market_sentiment
        = np_clip ((4/5) * prev + (1/5) * s2.sentimentDelta day) (-1) 1)
    ∧ (-1 ≤ (update_market_conditions days day prev s2).market_sentiment
        ∧ (update_market_conditions days day prev s2).market_sentiment ≤ 1)
    ∧ st.conditions.map (fun mc => mc.market_sentiment) = [0] := by
  refine ⟨rfl, ?_, ?_, ?_⟩
  · intro hday
    simp only [update_market_conditions]
    rw [if_neg (by omega : ¬ day = 0)]
  · simp only [update_market_conditions]
    by_cases h : day = 0
    · rw [if_pos h]
      norm_num
    · rw [if_neg h]
      unfold np_clip
      constructor
      · exact le_min (le_max_right _ _) (by norm_num)
      · exact min_le_right _ _
  · simp only [run_simulation, hday1] at hrun
    cases hInit : init_markets (generate_bonds cfg.num_bonds s) s.depthTrad s.depthTok with
    | error e =>
      rw [hInit] at hrun
      exact Except.noConfusion hrun
    | ok p =>
      rw [hInit] at hrun
      obtain ⟨tradM, tokM⟩ := p
      have hrun2 : sim_day cfg (generate_investors cfg.num_investors s) s
          { tradMarket := tradM, tokMarket := tokM, sentiment := 0, tradMetrics := [],
            tokMetrics := [], tradTxs := [], tokTxs := [], conditions := [] } 0
          >>= (fun st1 => Except.ok st1) = Except.ok st := hrun
      cases hsd : sim_day cfg (generate_investors cfg.num_investors s) s
          { tradMarket := tradM, tokMarket := tokM, sentiment := 0, tradMetrics := [],
            tokMetrics := [], tradTxs := [], tokTxs := [], conditions := [] } 0 with
      | error e =>
        rw [hsd] at hrun2
        exact Except.noConfusion (hrun2 : Except.error e = Except.ok st)
      | ok st1 =>
        rw [hsd] at hrun2
        have hrun3 : Except.ok st1 = (Except.ok st : Except String SimState) := hrun2
        have hst : st1 = st := by injection hrun3
        subst hst
        simp only [sim_day] at hsd
        cases ht1 : simulate_daily_trading (generate_investors cfg.num_investors s)
            cfg.traditional_min_amount tradM 0
            (update_market_conditions cfg.simulation_days 0 0 s) false (s.tradDraws 0) with
        | error e =>
          rw [ht1] at hsd
          exact Except.noConfusion hsd
        | ok q1 =>
          rw [ht1] at hsd
          obtain ⟨tm, tt, tnext⟩ := q1
          cases ht2 : simulate_daily_trading (generate_investors cfg.num_investors s)
              cfg.tokenized_min_amount tokM 0
              (update_market_conditions cfg.simulation_days 0 0 s) true (s.tokDraws 0) with
          | error e =>
            rw [ht2] at hsd
            exact Except.noConfusion hsd
          | ok q2 =>
            rw [ht2] at hsd
            obtain ⟨km, kt, knext⟩ := q2
            simp only [Except.ok.injEq] at hsd
            rw [← hsd]
            rfl

/-- Witness for C6: the concrete 1-bond, 1-investor, 1-day run completes and
its condition trace holds exactly one sentiment, 0; a concrete later-day
update is clipped into [-1, 1]. -/
theorem c6_sentiment_process_witness :
    c6_state.conditions.map (fun mc => mc.market_sentiment) = [0]
      ∧ (-1 ≤ (update_market_conditions 5 3 7 poorStream).market_sentiment
        ∧ (update_market_conditions 5 3 7 poorStream).market_sentiment ≤ 1) := by
  have h := c6_sentiment_process cfg1 poorStream c6_state 5 3 7 poorStream rfl
    (by with_unfolding_all rfl)
  exact ⟨h.2.2.2, h.2.2.1⟩

/-- Claim C7: a transaction attempt whose drawn investor cannot afford the
venue minimum (10% of assets strictly below the minimum) records nothing and
raises nothing (first conjunct: the attempt returns the state unchanged);
and when every investor is below minimum/0.1 for a venue, the venue's whole
day still completes without error, producing a DailyMetrics row whose
num_transactions is 0 and whose transaction list is empty (second
conjunct). -/
theorem c7_unaffordable_skips_without_error (investors : List Investor)
    (rows : List MarketRow) (mc : MarketConditions) (minAmt : ℚ) (is_tok : Bool)
    (day : Nat) (draws : TradeDraws)
    (hrows : rows ≠ []) (hinvs : investors ≠ [])
    (hall : ∀ inv ∈ investors, inv.assets * (1/10) < minAmt) :
    (∀ (t : Nat) (txs : List Transaction) (rows2 : List MarketRow), rows2 ≠ [] →
        trade_attempt investors minAmt is_tok day draws (txs, rows2) t
          = Except.ok (txs, rows2))
    ∧ ∃ m next, simulate_daily_trading investors minAmt rows day mc is_tok draws
        = Except.ok (m, [], next) ∧ m.num_transactions = 0 := by
  have hskipAll : ∀ (t : Nat) (txs : List Transaction) (rows2 : List MarketRow),
      rows2 ≠ [] →
      trade_attempt investors minAmt is_tok day draws (txs, rows2) t
        = Except.ok (txs, rows2) := by
    intro t txs rows2 hne
    have hpos : 0 < rows2.length := List.length_pos.mpr hne
    have hbi : draws.bondIdx t % rows2.length < rows2.length := Nat.mod_lt _ hpos
    have hbond := List.getElem?_eq_getElem hbi
    have hpos2 : 0 < investors.length := List.length_pos.mpr hinvs
    have hii : draws.investorIdx t % investors.length < investors.length :=
      Nat.mod_lt _ hpos2
    have hinv := List.getElem?_eq_getElem hii
    have hlt := hall _ (List.getElem?_mem hinv)
    simp only [trade_attempt, hbond, hinv]
    rw [if_pos hlt]
  refine ⟨hskipAll, ?_⟩
  have hlupd : (price_update rows mc draws.priceNoise).length = rows.length :=
    len_map_from_index _ rows 0
  have hupdne : price_update rows mc draws.priceNoise ≠ [] := by
    intro h
    apply hrows
    rw [← List.length_eq_zero, ← hlupd, h]
    rfl
  have hfold : (nat_range_from 0 (num_transactions_target
        (price_update rows mc draws.priceNoise).length is_tok mc.market_sentiment)).foldlM
      (trade_attempt investors minAmt is_tok day draws)
      ([], price_update rows mc draws.priceNoise)
      = Except.ok ([], price_update rows mc draws.priceNoise) :=
    foldlM_fixed _ _ _ (fun a _ => hskipAll a [] _ hupdne)
  obtain ⟨h0, hh0⟩ : ∃ h0, (price_update rows mc draws.priceNoise).head? = some h0 := by
    cases hu : price_update rows mc draws.priceNoise with
    | nil => exact absurd hu hupdne
    | cons a l => exact ⟨a, rfl⟩
  have hcf : update_market_for_next_day (price_update rows mc draws.priceNoise)
      draws.spreadAdj draws.depthAdj
      = Except.ok (map_with_index (fun j r =>
          { r with
            daily_volume :=
              (if h0.is_tokenized then r.face_value * (1/100) * 5 * (1/5)
                else r.face_value * (1/100) * (1/5)) + r.daily_volume * (4/5),
            bid_ask_spread := r.bid_ask_spread * draws.spreadAdj j,
            market_depth := int_trunc ((r.market_depth : ℚ) * draws.depthAdj j) })
          (price_update rows mc draws.priceNoise)) := by
    unfold update_market_for_next_day
    rw [hh0]
  refine ⟨compute_daily_metrics day (price_update rows mc draws.priceNoise) [],
    map_with_index (fun j r =>
      { r with
        daily_volume :=
          (if h0.is_tokenized then r.face_value * (1/100) * 5 * (1/5)
            else r.face_value * (1/100) * (1/5)) + r.daily_volume * (4/5),
        bid_ask_spread := r.bid_ask_spread * draws.spreadAdj j,
        market_depth := int_trunc ((r.market_depth : ℚ) * draws.depthAdj j) })
      (price_update rows mc draws.priceNoise), ?_, rfl⟩
  simp only [simulate_daily_trading, hfold, hcf]

/-- Witness for C7: the sole investor has assets 0, below the tokenized
minimum 100 over 0.1, and the tokenized venue's day still yields a metrics
row with num_transactions 0. -/
theorem c7_unaffordable_skips_without_error_witness :
    ((simulate_daily_trading [invPoor] 100 tokRows1 0 mc0 true zeroTD).toOption.map
      (fun p => p.1.num_transactions)) = some 0 := by
  have h := c7_unaffordable_skips_without_error [invPoor] tokRows1 mc0 100 true 0 zeroTD
    (by with_unfolding_all decide) (by decide) (by with_unfolding_all decide)
  obtain ⟨m, next, heq, hnum⟩ := h.2
  rw [heq]
  simp [Except.toOption, hnum]

/-- Claim C8, counterexample: the spread ordering between the venues is not
maintained on later days.  One bond of maturity 1 on each venue (initial
spreads 0.007 traditional, 0.002 tokenized), one simulated day whose
carry-forward draws spread noise 1/10 for the traditional venue and 4 for
the tokenized venue: the next day's tokenized spread 1/125 = 0.008 exceeds
the traditional 7/10000 = 0.0007 at equal maturity. -/
theorem c8_spread_order_violated_after_carry :
    ((run_simulation cfg1 c8Stream).toOption.map
      (fun st => (st.tradMarket.map (fun r => (r.maturity_years, r.bid_ask_spread)),
        st.tokMarket.map (fun r => (r.maturity_years, r.bid_ask_spread)))))
      = some ([(1, 7/10000)], [(1, 1/125)])
    ∧ ¬ ((1/125 : ℚ) ≤ 7/10000) := by
  constructor
  · with_unfolding_all rfl
  · with_unfolding_all decide

/-- Claim C8 as amended: at initialization the tokenized spread
0.001 + 0.001 * maturity is at most the traditional spread
0.005 + 0.002 * maturity for the equal-maturity counterpart row
(nonnegative maturities, as the source's maturity set dictates); and the
carry-forward preserves the pointwise spread ordering whenever the two
venues draw the same nonnegative spread noise.  For unequal draws the
ordering can be violated, as the counterexample shows. -/
theorem c8_spread_order_initial_and_equal_noise (B : Nat) (hB : 0 < B)
    (s : RandomStream) (hm : ∀ i, 0 ≤ s.maturity i)
    (tradRows tokRows : List MarketRow)
    (hinit : init_markets (generate_bonds B s) s.depthTrad s.depthTok
      = Except.ok (tradRows, tokRows)) :
    (∀ (i : Nat) (rT rK : MarketRow), tradRows[i]? = some rT → tokRows[i]? = some rK →
        rK.maturity_years = rT.maturity_years
          ∧ rK.bid_ask_spread ≤ rT.bid_ask_spread)
    ∧ (∀ (rowsT rowsK outT outK : List MarketRow) (adjS adjDT adjDK : Nat → ℚ),
        (∀ j, 0 ≤ adjS j) →
        update_market_for_next_day rowsT adjS adjDT = Except.ok outT →
        update_market_for_next_day rowsK adjS adjDK = Except.ok outK →
        ∀ (j : Nat) (rT rK rT2 rK2 : MarketRow),
          rowsT[j]? = some rT → rowsK[j]? = some rK →
          outT[j]? = some rT2 → outK[j]? = some rK2 →
          rK.bid_ask_spread ≤ rT.bid_ask_spread →
          rK2.bid_ask_spread ≤ rT2.bid_ask_spread) := by
  rw [init_markets_generate B hB s] at hinit
  have hpair := hinit
  simp only [Except.ok.injEq, Prod.mk.injEq] at hpair
  obtain ⟨hT, hK⟩ := hpair
  subst hT
  subst hK
  constructor
  · intro i rT rK hTi hKi
    rw [getq_trad_init] at hTi
    rw [getq_tok_init] at hKi
    by_cases hi : i < B
    · rw [if_pos hi] at hTi hKi
      injection hTi with hTi2
      injection hKi with hKi2
      subst hTi2
      subst hKi2
      refine ⟨rfl, ?_⟩
      have hmi := hm i
      show (1/1000 : ℚ) + (1/1000) * s.maturity i ≤ 5/1000 + (2/1000) * s.maturity i
      linarith
    · rw [if_neg hi] at hTi
      exact Option.noConfusion hTi
  · intro rowsT rowsK outT outK adjS adjDT adjDK hadj houtT houtK j rT rK rT2 rK2
      hrT hrK hrT2 hrK2 hle
    obtain ⟨hT0, hhT0⟩ := update_next_day_head rowsT adjS adjDT outT houtT
    obtain ⟨hK0, hhK0⟩ := update_next_day_head rowsK adjS adjDK outK houtK
    have hfT := (update_next_day_fields rowsT hT0 adjS adjDT outT hhT0 houtT).2
      j rT rT2 hrT hrT2
    have hfK := (update_next_day_fields rowsK hK0 adjS adjDK outK hhK0 houtK).2
      j rK rK2 hrK hrK2
    rw [hfT.2.2.1, hfK.2.2.1]
    exact mul_le_mul_of_nonneg_right hle (hadj j)

/-- Witness for C8 as amended: the two initialized one-bond venue tables of
init1 have equal maturity in row 0 and tokenized spread below traditional
spread. -/
theorem c8_spread_order_initial_and_equal_noise_witness :
    rowK1.maturity_years = rowT1.maturity_years
      ∧ rowK1.bid_ask_spread ≤ rowT1.bid_ask_spread := by
  have h := c8_spread_order_initial_and_equal_noise 1 (by decide) poorStream
    (fun i => by show (0 : ℚ) ≤ 1; with_unfolding_all decide) tradRows1 tokRows1
    (by with_unfolding_all rfl)
  exact h.1 0 rowT1 rowK1 (by with_unfolding_all rfl) (by with_unfolding_all rfl)

/-- Claim C9, counterexample: a configuration with a non-positive day count
(0) and a non-positive tokenized minimum (-100) is not rejected: the engine
runs, the day loop executes zero times, and the run returns normally with
zero DailyMetrics rows per venue, instead of failing fatally before the
loop. -/
theorem c9_invalid_config_accepted :
    ((run_simulation cfgDays0 poorStream).toOption.map
      (fun st => (st.tradMetrics.length, st.tokMetrics.length))) = some (0, 0) := by
  with_unfolding_all rfl

/-- Claim C9 as amended: the engine performs no configuration validation.
A zero bond count is not detected as a configuration error; the run fails
only incidentally when market initialization reads iloc[0] of the empty
traditional slice (IndexError), for any investor count, day count and
minimum amounts (first conjunct).  A non-positive day count (with positive
bond count) is accepted outright: the loop body never runs and the run
returns normally with empty metrics and transaction logs, whatever the
minimum amounts, including non-positive ones (second conjunct). -/
theorem c9_no_config_validation (cfg : SimConfig) (s : RandomStream) :
    (cfg.num_bonds = 0 → run_simulation cfg s = Except.error "IndexError")
    ∧ (cfg.simulation_days = 0 → 0 < cfg.num_bonds →
        ∃ st, run_simulation cfg s = Except.ok st
          ∧ st.tradMetrics = [] ∧ st.tokMetrics = [] ∧ st.tradTxs = []
          ∧ st.tokTxs = []) := by
  constructor
  · intro h
    simp only [run_simulation, h]
    rfl
  · intro hd hB
    refine ⟨⟨trad_init cfg.num_bonds s, tok_init cfg.num_bonds s, 0, [], [], [], [], []⟩,
      ?_, rfl, rfl, rfl, rfl⟩
    simp only [run_simulation, hd]
    rw [init_markets_generate cfg.num_bonds hB s]
    rfl

/-- Witness for C9 as amended: the engine with bond count 0 reaches the
incidental IndexError of market initialization rather than a detected
configuration failure. -/
theorem c9_no_config_validation_witness :
    run_simulation cfgB0 poorStream = Except.error "IndexError" :=
  (c9_no_config_validation cfgB0 poorStream).1 rfl

/-- Claim C10: generate_bonds with positive bond count B yields 2B bonds, of
which exactly B are tokenized and B traditional, and the tokenized bond at
position B+i mirrors the traditional bond at position i in face value,
coupon rate, maturity, credit rating, issue date and maturity date, while
its identifier is shifted by B and its tokenized flag is set. -/
theorem c10_population_mirror (B : Nat) (hB : 0 < B) (s : RandomStream) :
    (generate_bonds B s).length = 2 * B
    ∧ ((generate_bonds B s).filter (fun b => b.is_tokenized)).length = B
    ∧ ((generate_bonds B s).filter (fun b => !b.is_tokenized)).length = B
    ∧ ∀ (i : Nat), i < B → ∀ (bT bK : Bond),
        (generate_bonds B s)[i]? = some bT → (generate_bonds B s)[B + i]? = some bK →
        bK.face_value = bT.face_value ∧ bK.coupon_rate = bT.coupon_rate
          ∧ bK.maturity_years = bT.maturity_years ∧ bK.credit_rating = bT.credit_rating
          ∧ bK.issue_date = bT.issue_date ∧ bK.maturity_date = bT.maturity_date
          ∧ bK.bond_id = bT.bond_id + B ∧ bT.is_tokenized = false
          ∧ bK.is_tokenized = true := by
  have hlenT : ((nat_range_from 0 B).map (mk_trad_bond s)).length = B := by
    rw [List.length_map, nat_range_from_len]
  have hlenK : ((nat_range_from 0 B).map (mk_tok_bond B s)).length = B := by
    rw [List.length_map, nat_range_from_len]
  refine ⟨?_, ?_, ?_, ?_⟩
  · rw [generate_bonds, List.length_append, hlenT, hlenK]
    omega
  · have h1 : ((nat_range_from 0 B).map (mk_trad_bond s)).filter
        (fun b => b.is_tokenized) = [] := by
      apply filter_all_drop
      intro x hx
      obtain ⟨i, _, rfl⟩ := List.mem_map.mp hx
      rfl
    have h2 : ((nat_range_from 0 B).map (mk_tok_bond B s)).filter
        (fun b => b.is_tokenized) = (nat_range_from 0 B).map (mk_tok_bond B s) := by
      apply filter_all_keep
      intro x hx
      obtain ⟨i, _, rfl⟩ := List.mem_map.mp hx
      rfl
    rw [generate_bonds, List.filter_append, h1, h2, List.nil_append, hlenK]
  · have h1 : ((nat_range_from 0 B).map (mk_trad_bond s)).filter
        (fun b => !b.is_tokenized) = (nat_range_from 0 B).map (mk_trad_bond s) := by
      apply filter_all_keep
      intro x hx
      obtain ⟨i, _, rfl⟩ := List.mem_map.mp hx
      rfl
    have h2 : ((nat_range_from 0 B).map (mk_tok_bond B s)).filter
        (fun b => !b.is_tokenized) = [] := by
      apply filter_all_drop
      intro x hx
      obtain ⟨i, _, rfl⟩ := List.mem_map.mp hx
      rfl
    rw [generate_bonds, List.filter_append, h1, h2, List.append_nil, hlenT]
  · intro i hi bT bK hT hK
    rw [generate_bonds, List.getElem?_append, hlenT, if_pos hi,
      List.getElem?_map, getq_nat_range_from, if_pos hi] at hT
    rw [generate_bonds, List.getElem?_append, hlenT, if_neg (by omega),
      (by omega : B + i - B = i),
      List.getElem?_map, getq_nat_range_from, if_pos hi] at hK
    simp only [Nat.zero_add, Option.map] at hT hK
    injection hT with hT2
    injection hK with hK2
    subst hT2
    subst hK2
    exact ⟨rfl, rfl, rfl, rfl, rfl, rfl, rfl, rfl, rfl⟩

/-- Witness for C10: with one bond under the concrete oracle, the tokenized
bond at position 1 equals the traditional bond at position 0 in face value
and shifts the identifier by 1. -/
theorem c10_population_mirror_witness :
    (mk_tok_bond 1 poorStream 0).face_value = (mk_trad_bond poorStream 0).face_value
      ∧ (mk_tok_bond 1 poorStream 0).bond_id = (mk_trad_bond poorStream 0).bond_id + 1 := by
  have h := (c10_population_mirror 1 (by decide) poorStream).2.2.2 0 (by decide)
    (mk_trad_bond poorStream 0) (mk_tok_bond 1 poorStream 0)
    (by with_unfolding_all rfl) (by with_unfolding_all rfl)
  exact ⟨h.1, h.2.2.2.2.2.2.1⟩
